import Mathlib

/-!
Shallow embedding of the `cai` tool modules
(`exfiltration_tools.py`, `ssh_tools.py`, `privesc_tools.py`).

Every tool function in the repository builds one shell command string from
its parameters and hands it to the external executor `run_command`, or
returns a validation-error string without ever calling the executor.
We model that boundary with `RunResult`: `.exec cmd` means the builder
invokes `run_command` exactly once with `cmd`, `.error msg` means the
builder returns `msg` and never invokes the executor.
-/

/-- Result of a builder: either the single command handed to the external
executor `run_command`, or a validation-error string returned without any
executor invocation. -/
inductive RunResult where
  | error (msg : String)
  | exec (cmd : String)
deriving DecidableEq

/-- Models Python `str.upper` (ASCII range, which is all the repository's
direction values use): each character is uppercased. -/
def pyUpper (s : String) : String := String.mk (s.data.map Char.toUpper)

/-- Models Python `str.lower` (ASCII range): each character is lowercased. -/
def pyLower (s : String) : String := String.mk (s.data.map Char.toLower)

/-- Models Python `sep.join(parts)`. -/
def pyJoin (sep : String) : List String → String
  | [] => ""
  | [s] => s
  | s :: rest => s ++ sep ++ pyJoin sep rest

/-- Models Python `os.path.basename` on POSIX: the part after the last `/`. -/
def basename (p : String) : String := (p.splitOn "/").getLastD ""

/-- Models Python `password.replace('%', '%%')`: each percent sign is
doubled (the pattern is a single character, so the character-wise rewrite
is exactly Python's replace). -/
def escPct : List Char → List Char
  | [] => []
  | c :: cs => if c = '%' then '%' :: '%' :: escPct cs else c :: escPct cs

/-- The consumer-side inverse of `escPct`: a reader that treats `%%` as a
literal percent recovers the original characters. -/
def unescPct : List Char → List Char
  | [] => []
  | [c] => [c]
  | c :: c2 :: cs =>
    if c = '%' ∧ c2 = '%' then '%' :: unescPct cs
    else c :: unescPct (c2 :: cs)

/-- Characters Python `shlex.quote` treats as safe: the ASCII alphanumerics,
underscore, `@ % + = : , .`, the slash and the dash (the complement of its
`_find_unsafe` ASCII regular expression). -/
def shlexSafe (c : Char) : Bool :=
  c.isAlphanum || c = '_' || c = '@' || c = '%' || c = '+' || c = '=' ||
  c = ':' || c = ',' || c = '.' || c = '/' || c = '-'

/-- Models Python `s.replace("'", "'\"'\"'")`, the rewrite `shlex.quote`
applies inside the surrounding single quotes. -/
def escSq : List Char → List Char
  | [] => []
  | c :: cs =>
    if c = '\'' then '\'' :: '"' :: '\'' :: '"' :: '\'' :: escSq cs
    else c :: escSq cs

/-- Models Python `shlex.quote`. -/
def shlexQuote (s : String) : String :=
  if s = "" then "''"
  else if s.data.all shlexSafe then s
  else "'" ++ String.mk (escSq s.data) ++ "'"

/-!
POSIX-style field splitting, modelling how the shell behind the executor
breaks a command string into argument tokens: unquoted spaces separate
fields, single- and double-quoted stretches are kept inside one field
(escape sequences are not modelled; none of the inputs considered here
use backslashes).
-/

/-- Quoting mode of the field splitter. -/
inductive QM where
  | norm
  | sq
  | dq
deriving DecidableEq

/-- One pass of the field splitter: remaining characters, quoting mode,
whether a field is in progress, and the (reversed) characters of the
current field. -/
def shellFieldsAux : List Char → QM → Bool → List Char → List String
  | [], _, st, acc => if st then [String.mk acc.reverse] else []
  | c :: cs, QM.norm, st, acc =>
    if c = ' ' then
      (if st then [String.mk acc.reverse] else []) ++ shellFieldsAux cs QM.norm false []
    else if c = '\'' then shellFieldsAux cs QM.sq true acc
    else if c = '"' then shellFieldsAux cs QM.dq true acc
    else shellFieldsAux cs QM.norm true (c :: acc)
  | c :: cs, QM.sq, _, acc =>
    if c = '\'' then shellFieldsAux cs QM.norm true acc
    else shellFieldsAux cs QM.sq true (c :: acc)
  | c :: cs, QM.dq, _, acc =>
    if c = '"' then shellFieldsAux cs QM.norm true acc
    else shellFieldsAux cs QM.dq true (c :: acc)

/-- The argument tokens the executor's shell derives from a command string. -/
def shellFields (s : String) : List String := shellFieldsAux s.data QM.norm false []

/-! ### `exfiltration_tools.py` -/

/-- `compress_directory`: `cmd = f"tar czf {archive_name} -C {directory} ."`. -/
def compress_directory (directory : String)
    (archive_name : String := "archive.tar.gz") : RunResult :=
  .exec ("tar czf " ++ archive_name ++ " -C " ++ directory ++ " .")

/-- `scp_upload`: `["scp", "-P", port]`, optional `["-i", identity_file]`,
then `local_file` and `user@host:remote_path`, joined with spaces. -/
def scp_upload (local_file remote_path user host : String)
    (port : String := "22") (identity_file : String := "") : RunResult :=
  let scp_parts := ["scp", "-P", port] ++
    (if identity_file ≠ "" then ["-i", identity_file] else []) ++
    [local_file, user ++ "@" ++ host ++ ":" ++ remote_path]
  .exec (pyJoin " " scp_parts)

/-- `scp_download`: like `scp_upload` with source and destination swapped. -/
def scp_download (remote_file local_path user host : String)
    (port : String := "22") (identity_file : String := "") : RunResult :=
  let scp_parts := ["scp", "-P", port] ++
    (if identity_file ≠ "" then ["-i", identity_file] else []) ++
    [user ++ "@" ++ host ++ ":" ++ remote_file, local_path]
  .exec (pyJoin " " scp_parts)

/-- `base64_encode_file`: `f"base64 {file_path}"`. -/
def base64_encode_file (file_path : String) : RunResult :=
  .exec ("base64 " ++ file_path)

/-- `upload_http`: `f"curl -X POST -F '{field_name}=@{file_path}' {url}"`. -/
def upload_http (url file_path : String) (field_name : String := "file") : RunResult :=
  .exec ("curl -X POST -F '" ++ field_name ++ "=@" ++ file_path ++ "' " ++ url)

/-- `split_file`: prefix is `basename(file_path) + ".part"`,
`cmd = f"split -b {chunk_size_mb}M {file_path} {prefix}"`. -/
def split_file (file_path : String) (chunk_size_mb : Int := 10) : RunResult :=
  let base := basename file_path
  .exec ("split -b " ++ toString chunk_size_mb ++ "M " ++ file_path ++ " " ++
    (base ++ ".part"))

/-- `compress_and_encrypt`: `quoted_dir = shlex.quote(directory)`; with a
password `f"zip -r -P {shlex.quote(password)} {archive_name} {quoted_dir}"`,
otherwise `f"zip -r {archive_name} {quoted_dir}"`. -/
def compress_and_encrypt (directory : String)
    (archive_name : String := "archive.zip") (password : String := "") : RunResult :=
  let quoted_dir := shlexQuote directory
  if password ≠ "" then
    .exec ("zip -r -P " ++ shlexQuote password ++ " " ++ archive_name ++ " " ++ quoted_dir)
  else
    .exec ("zip -r " ++ archive_name ++ " " ++ quoted_dir)

/-! ### `ssh_tools.py` -/

/-- `ssh_exec`: `["ssh", "-p", port]`, optional `["-i", identity_file]`,
`user@host`, then `f'"{command}"'` (the remote command wrapped in double
quotes), joined with spaces. -/
def ssh_exec (user host command : String)
    (port : String := "22") (identity_file : String := "") : RunResult :=
  let ssh_parts := ["ssh", "-p", port] ++
    (if identity_file ≠ "" then ["-i", identity_file] else []) ++
    [user ++ "@" ++ host, "\"" ++ command ++ "\""]
  .exec (pyJoin " " ssh_parts)

/-- `ping_host`: `f"ping -c {count} {host}"`. -/
def ping_host (host : String) (count : Int := 4) : RunResult :=
  .exec ("ping -c " ++ toString count ++ " " ++ host)

/-- `ssh_tunnel`: uppercases `direction`; if it is not `L` or `R`, returns
the validation error without executing; otherwise joins
`["ssh", "-f", "-N"]`, optional `["-i", identity_file]`,
`-{direction}`, `{local_port}:{remote_host}:{remote_port}`, `user@host`. -/
def ssh_tunnel (local_port : Int) (remote_host : String) (remote_port : Int)
    (user host : String) (direction : String := "L")
    (identity_file : String := "") : RunResult :=
  let dir := pyUpper direction
  if dir = "L" ∨ dir = "R" then
    .exec (pyJoin " " (["ssh", "-f", "-N"] ++
      (if identity_file ≠ "" then ["-i", identity_file] else []) ++
      ["-" ++ dir,
       toString local_port ++ ":" ++ remote_host ++ ":" ++ toString remote_port,
       user ++ "@" ++ host]))
  else
    .error "Direction must be 'L' or 'R'."

/-- `smb_list_shares`: with a user, auth is
`f"-U {domain + '\\' if domain else ''}{user}%{pw}"` where `pw` doubles the
percent signs of the password; without a user, auth is `-N`.  Then
`cmd = f"smbclient -L //{host} {auth} -g"`. -/
def smb_list_shares (host : String) (user : String := "")
    (password : String := "") (domain : String := "") : RunResult :=
  let auth :=
    if user ≠ "" then
      let pw := if password ≠ "" then String.mk (escPct password.data) else ""
      "-U " ++ (if domain ≠ "" then domain ++ "\\" else "") ++ user ++ "%" ++ pw
    else "-N"
  .exec ("smbclient -L //" ++ host ++ " " ++ auth ++ " -g")

/-- `rsync_transfer`: lowercases `direction`; ssh options
`["ssh", "-p", port]` plus optional `["-i", identity_file]` are joined and
wrapped in double quotes as the `-e` argument; `upload` appends
`[local_path, user@host:remote_path]`, `download` the reverse, any other
direction returns the validation error without executing. -/
def rsync_transfer (local_path remote_path user host : String)
    (port : String := "22") (identity_file : String := "")
    (direction : String := "upload") : RunResult :=
  let dir := pyLower direction
  let ssh_opts := ["ssh", "-p", port] ++
    (if identity_file ≠ "" then ["-i", identity_file] else [])
  let remote := user ++ "@" ++ host ++ ":" ++ remote_path
  let ssh_cmd := pyJoin " " ssh_opts
  let base_cmd := ["rsync", "-avz", "-e", "\"" ++ ssh_cmd ++ "\""]
  if dir = "upload" then
    .exec (pyJoin " " (base_cmd ++ [local_path, remote]))
  else if dir = "download" then
    .exec (pyJoin " " (base_cmd ++ [remote, local_path]))
  else
    .error "Direction must be 'upload' or 'download'."

/-! ### `privesc_tools.py` -/

/-- `list_suid_files`: fixed command. -/
def list_suid_files : RunResult :=
  .exec "find / -perm -4000 -type f 2>/dev/null"

/-- `sudo_permissions`: fixed command. -/
def sudo_permissions : RunResult := .exec "sudo -l"

/-- `kernel_info`: fixed command. -/
def kernel_info : RunResult := .exec "uname -a"

/-- `world_writable_dirs`: fixed command. -/
def world_writable_dirs : RunResult :=
  .exec "find / -perm -0002 -type d 2>/dev/null"

/-- `list_file_capabilities`: fixed command. -/
def list_file_capabilities : RunResult :=
  .exec "getcap -r / 2>/dev/null"

/-- `list_cron_jobs`: six fixed sub-commands joined with `" && "`. -/
def list_cron_jobs : RunResult :=
  .exec (pyJoin " && "
    ["echo '[System crontab]'",
     "cat /etc/crontab 2>/dev/null || true",
     "echo '\n[/etc/cron* directories]'",
     "ls -l /etc/cron* 2>/dev/null || true",
     "echo '\n[Current user crontab]'",
     "crontab -l 2>/dev/null || echo 'No user crontab'"])

/-! ### Helper lemmas -/

theorem str_data_eq {s t : String} (h : s.data = t.data) : s = t := by
  cases s; cases t; cases h; rfl

theorem data_append (s t : String) : (s ++ t).data = s.data ++ t.data := rfl

/-- C1: for every direction outside the accepted set (case-insensitively
`{L, R}` for `ssh_tunnel`, `{upload, download}` for `rsync_transfer`), the
call returns the exact descriptive error string and never reaches the
executor (`RunResult.error`, so no `run_command` invocation). -/
theorem invalid_direction_rejected :
    (∀ (lp : Int) (rh : String) (rp : Int) (u h d idf : String),
        pyUpper d ≠ "L" → pyUpper d ≠ "R" →
        ssh_tunnel lp rh rp u h d idf = .error "Direction must be 'L' or 'R'.") ∧
    (∀ lp rp u h port idf d : String,
        pyLower d ≠ "upload" → pyLower d ≠ "download" →
        rsync_transfer lp rp u h port idf d =
          .error "Direction must be 'upload' or 'download'.") := by
  constructor
  · intro lp rh rp u h d idf h1 h2
    simp only [ssh_tunnel]
    rw [if_neg (by intro hc; exact hc.elim h1 h2)]
  · intro lp rp u h port idf d h1 h2
    simp only [rsync_transfer]
    rw [if_neg h1, if_neg h2]

/-- Witness for C1: `ssh_tunnel` with direction `"X"` and `rsync_transfer`
with direction `"sideways"` each return the exact error string. -/
theorem invalid_direction_rejected_w :
    ssh_tunnel 1 "rh" 2 "u" "h" "X" "" = .error "Direction must be 'L' or 'R'." ∧
    rsync_transfer "/tmp/a" "/r" "u" "h" "22" "" "sideways" =
      .error "Direction must be 'upload' or 'download'." :=
  ⟨invalid_direction_rejected.1 1 "rh" 2 "u" "h" "X" "" (by decide) (by decide),
   invalid_direction_rejected.2 "/tmp/a" "/r" "u" "h" "22" "" "sideways"
     (by decide) (by decide)⟩

/-- C4: `compress_directory "data" "out.tar.gz"` hands the executor exactly
`tar czf out.tar.gz -C data .`. -/
theorem compress_directory_scenario :
    compress_directory "data" "out.tar.gz" = .exec "tar czf out.tar.gz -C data ." := rfl

/-- C5: for every direction whose uppercase form is `L` or `R`, `ssh_tunnel`
normalizes the direction to uppercase and builds the corresponding
`-L`/`-R` forwarding command. -/
theorem ssh_tunnel_normalizes (lp : Int) (rh : String) (rp : Int) (u h d idf : String)
    (hd : pyUpper d = "L" ∨ pyUpper d = "R") :
    ssh_tunnel lp rh rp u h d idf =
      .exec ("ssh -f -N " ++ (if idf ≠ "" then "-i " ++ idf ++ " " else "") ++
        "-" ++ pyUpper d ++ " " ++ toString lp ++ ":" ++ rh ++ ":" ++ toString rp ++
        " " ++ u ++ "@" ++ h) := by
  simp only [ssh_tunnel]
  rw [if_pos hd]
  by_cases hidf : idf = "" <;>
    · simp only [hidf, if_pos, if_neg, ite_true, ite_false, ne_eq, not_true, not_false_iff]
      congr 1
      apply str_data_eq
      simp [pyJoin, data_append, List.append_assoc]

/-- Witness for C5: the spec's scenario 2,
`ssh_tunnel(8080, "internal.host", 80, "alice", "gateway", direction="r")`. -/
theorem ssh_tunnel_normalizes_w :
    ssh_tunnel 8080 "internal.host" 80 "alice" "gateway" "r" "" =
      .exec "ssh -f -N -R 8080:internal.host:80 alice@gateway" :=
  (ssh_tunnel_normalizes 8080 "internal.host" 80 "alice" "gateway" "r" ""
    (Or.inr (by decide))).trans (by decide)

/-- C9: with an empty user, `smb_list_shares` builds the anonymous-login
command with `-N`, and the result does not depend on the password. -/
theorem smb_list_shares_anonymous (host pw dom : String) :
    smb_list_shares host "" pw dom = .exec ("smbclient -L //" ++ host ++ " -N -g") ∧
    smb_list_shares host "" pw dom = smb_list_shares host "" "" dom := by
  constructor
  · simp only [smb_list_shares]
    rw [if_neg (by simp)]
    congr 1
    apply str_data_eq
    simp [data_append, List.append_assoc]
  · rfl

/-! ### Percent-escaping lemmas (for C3) -/

theorem escPct_ne_nil (c : Char) (cs : List Char) : escPct (c :: cs) ≠ [] := by
  simp only [escPct]
  split <;> simp

/-- Escaping then collapsing doubled percents recovers the original
characters: the consumer of the authentication string sees each percent of
the password literally. -/
theorem unesc_escPct : ∀ l : List Char, unescPct (escPct l) = l := by
  intro l
  induction l with
  | nil => rfl
  | cons c cs ih =>
    by_cases hc : c = '%'
    · subst hc
      simp only [escPct, if_pos rfl, unescPct, and_self, ite_true, ih]
    · rw [show escPct (c :: cs) = c :: escPct cs from by
        simp only [escPct, if_neg hc]]
      cases hcs : escPct cs with
      | nil =>
        cases cs with
        | nil => rfl
        | cons d ds => exact absurd hcs (escPct_ne_nil d ds)
      | cons d ds =>
        have hnand : ¬(c = '%' ∧ d = '%') := fun hand => hc hand.1
        rw [show unescPct (c :: d :: ds) = c :: unescPct (d :: ds) from by
          simp only [unescPct, if_neg hnand]]
        rw [← hcs, ih]

/-- C3: with a non-empty user, `smb_list_shares` builds the `-U`
authentication string with every percent sign of the password doubled, and
that escaping is faithful: collapsing the doubled percents recovers the
password, so the consumer sees literal percents. -/
theorem smb_list_shares_escapes (host user pw dom : String) (hu : user ≠ "") :
    smb_list_shares host user pw dom =
      .exec ("smbclient -L //" ++ host ++ " -U " ++
        (if dom ≠ "" then dom ++ "\\" else "") ++ user ++ "%" ++
        String.mk (escPct pw.data) ++ " -g") ∧
    unescPct (escPct pw.data) = pw.data := by
  constructor
  · simp only [smb_list_shares]
    rw [if_pos hu]
    have hpw : (if pw ≠ "" then String.mk (escPct pw.data) else "") =
        String.mk (escPct pw.data) := by
      by_cases hp : pw = ""
      · subst hp; rfl
      · rw [if_pos hp]
    rw [hpw]
    congr 1
    apply str_data_eq
    by_cases hd : dom = "" <;>
      · simp only [hd, ite_true, ite_false, ne_eq, not_true, not_false_iff]
        simp [data_append, List.append_assoc]
  · exact unesc_escPct pw.data

/-- Witness for C3: user `bob`, password `p%s`: the executor receives
`smbclient -L //srv -U bob%p%%s -g`. -/
theorem smb_list_shares_escapes_w :
    smb_list_shares "srv" "bob" "p%s" "" = .exec "smbclient -L //srv -U bob%p%%s -g" :=
  ((smb_list_shares_escapes "srv" "bob" "p%s" "" (by decide)).1).trans (by decide)

/-- C6: for a (case-insensitive) `download` direction, `rsync_transfer`
lists the remote location `user@host:remote_path` as the source and
`local_path` as the destination; for `upload` the order is reversed. -/
theorem rsync_transfer_order (lp rp u h port idf d : String) :
    (pyLower d = "download" →
      rsync_transfer lp rp u h port idf d =
        .exec ("rsync -avz -e \"ssh -p " ++ port ++
          (if idf ≠ "" then " -i " ++ idf else "") ++ "\" " ++
          u ++ "@" ++ h ++ ":" ++ rp ++ " " ++ lp)) ∧
    (pyLower d = "upload" →
      rsync_transfer lp rp u h port idf d =
        .exec ("rsync -avz -e \"ssh -p " ++ port ++
          (if idf ≠ "" then " -i " ++ idf else "") ++ "\" " ++
          lp ++ " " ++ u ++ "@" ++ h ++ ":" ++ rp)) := by
  constructor
  · intro hd
    simp only [rsync_transfer, hd]
    rw [if_neg (show ¬("download" : String) = "upload" by decide)]
    by_cases hidf : idf = "" <;>
      · simp only [hidf, ite_true, ite_false, ne_eq, not_true, not_false_iff]
        congr 1
        apply str_data_eq
        simp [pyJoin, data_append, List.append_assoc]
  · intro hd
    simp only [rsync_transfer, hd]
    rw [if_pos trivial]
    by_cases hidf : idf = "" <;>
      · simp only [hidf, ite_true, ite_false, ne_eq, not_true, not_false_iff]
        congr 1
        apply str_data_eq
        simp [pyJoin, data_append, List.append_assoc]

/-- Witness for C6: the spec's scenario 3,
`rsync_transfer("/tmp/a", "/remote/b", "bob", "10.0.0.5", direction="download")`
transfers from `bob@10.0.0.5:/remote/b` into `/tmp/a`. -/
theorem rsync_transfer_order_w :
    rsync_transfer "/tmp/a" "/remote/b" "bob" "10.0.0.5" "22" "" "download" =
      .exec "rsync -avz -e \"ssh -p 22\" bob@10.0.0.5:/remote/b /tmp/a" :=
  ((rsync_transfer_order "/tmp/a" "/remote/b" "bob" "10.0.0.5" "22" "" "download").1
    (by decide)).trans (by decide)

/-- C7: with the port parameter left at its declared default, the commands
built by `scp_upload`, `scp_download`, `ssh_exec` and `rsync_transfer` all
carry the default port token `22` as the argument of scp's `-P` resp.
ssh's `-p` option (for `rsync_transfer`, inside the quoted `-e` transport
sub-command), whatever the other arguments are. -/
theorem default_port_22 :
    (∀ lf rp u h idf : String, ∃ rest,
        scp_upload lf rp u h "22" idf = .exec ("scp -P 22 " ++ rest)) ∧
    (∀ rf lp u h idf : String, ∃ rest,
        scp_download rf lp u h "22" idf = .exec ("scp -P 22 " ++ rest)) ∧
    (∀ u h c idf : String, ∃ rest,
        ssh_exec u h c "22" idf = .exec ("ssh -p 22 " ++ rest)) ∧
    (∀ lp rp u h idf : String, ∃ rest,
        rsync_transfer lp rp u h "22" idf "upload" =
          .exec ("rsync -avz -e \"ssh -p 22" ++ rest)) ∧
    (∀ lp rp u h idf : String, ∃ rest,
        rsync_transfer lp rp u h "22" idf "download" =
          .exec ("rsync -avz -e \"ssh -p 22" ++ rest)) := by
  refine ⟨?_, ?_, ?_, ?_, ?_⟩
  · intro lf rp u h idf
    by_cases hidf : idf = ""
    · refine ⟨lf ++ " " ++ u ++ "@" ++ h ++ ":" ++ rp, ?_⟩
      simp only [scp_upload, hidf, ite_true, ite_false, ne_eq, not_true, not_false_iff]
      apply congrArg
      apply str_data_eq
      simp [pyJoin, data_append, List.append_assoc]
    · refine ⟨"-i " ++ idf ++ " " ++ lf ++ " " ++ u ++ "@" ++ h ++ ":" ++ rp, ?_⟩
      simp only [scp_upload, hidf, ite_true, ite_false, ne_eq, not_false_iff]
      apply congrArg
      apply str_data_eq
      simp [pyJoin, data_append, List.append_assoc]
  · intro rf lp u h idf
    by_cases hidf : idf = ""
    · refine ⟨u ++ "@" ++ h ++ ":" ++ rf ++ " " ++ lp, ?_⟩
      simp only [scp_download, hidf, ite_true, ite_false, ne_eq, not_true, not_false_iff]
      apply congrArg
      apply str_data_eq
      simp [pyJoin, data_append, List.append_assoc]
    · refine ⟨"-i " ++ idf ++ " " ++ u ++ "@" ++ h ++ ":" ++ rf ++ " " ++ lp, ?_⟩
      simp only [scp_download, hidf, ite_true, ite_false, ne_eq, not_false_iff]
      apply congrArg
      apply str_data_eq
      simp [pyJoin, data_append, List.append_assoc]
  · intro u h c idf
    by_cases hidf : idf = ""
    · refine ⟨u ++ "@" ++ h ++ " \"" ++ c ++ "\"", ?_⟩
      simp only [ssh_exec, hidf, ite_true, ite_false, ne_eq, not_true, not_false_iff]
      apply congrArg
      apply str_data_eq
      simp [pyJoin, data_append, List.append_assoc]
    · refine ⟨"-i " ++ idf ++ " " ++ u ++ "@" ++ h ++ " \"" ++ c ++ "\"", ?_⟩
      simp only [ssh_exec, hidf, ite_true, ite_false, ne_eq, not_false_iff]
      apply congrArg
      apply str_data_eq
      simp [pyJoin, data_append, List.append_assoc]
  · intro lp rp u h idf
    by_cases hidf : idf = ""
    · refine ⟨"\" " ++ lp ++ " " ++ u ++ "@" ++ h ++ ":" ++ rp, ?_⟩
      simp only [rsync_transfer, hidf, ite_true, ite_false, ne_eq, not_true, not_false_iff]
      rw [if_pos (show pyLower "upload" = "upload" by decide)]
      apply congrArg
      apply str_data_eq
      simp [pyJoin, data_append, List.append_assoc]
    · refine ⟨" -i " ++ idf ++ "\" " ++ lp ++ " " ++ u ++ "@" ++ h ++ ":" ++ rp, ?_⟩
      simp only [rsync_transfer, hidf, ite_true, ite_false, ne_eq, not_false_iff]
      rw [if_pos (show pyLower "upload" = "upload" by decide)]
      apply congrArg
      apply str_data_eq
      simp [pyJoin, data_append, List.append_assoc]
  · intro lp rp u h idf
    by_cases hidf : idf = ""
    · refine ⟨"\" " ++ u ++ "@" ++ h ++ ":" ++ rp ++ " " ++ lp, ?_⟩
      simp only [rsync_transfer, hidf, ite_true, ite_false, ne_eq, not_true, not_false_iff]
      rw [if_neg (show ¬pyLower "download" = "upload" by decide),
        if_pos (show pyLower "download" = "download" by decide)]
      apply congrArg
      apply str_data_eq
      simp [pyJoin, data_append, List.append_assoc]
    · refine ⟨" -i " ++ idf ++ "\" " ++ u ++ "@" ++ h ++ ":" ++ rp ++ " " ++ lp, ?_⟩
      simp only [rsync_transfer, hidf, ite_true, ite_false, ne_eq, not_false_iff]
      rw [if_neg (show ¬pyLower "download" = "upload" by decide),
        if_pos (show pyLower "download" = "download" by decide)]
      apply congrArg
      apply str_data_eq
      simp [pyJoin, data_append, List.append_assoc]

/-- C10: command construction is total for every builder: for all argument
values of the declared types, each builder either returns one of the two
validation-error strings (only `ssh_tunnel` and `rsync_transfer` can) or
hands the executor exactly one command built from its arguments. -/
theorem builders_total :
    (∀ dir an, ∃ c, compress_directory dir an = .exec c) ∧
    (∀ lf rp u h p idf, ∃ c, scp_upload lf rp u h p idf = .exec c) ∧
    (∀ rf lp u h p idf, ∃ c, scp_download rf lp u h p idf = .exec c) ∧
    (∀ fp, ∃ c, base64_encode_file fp = .exec c) ∧
    (∀ url fp fn, ∃ c, upload_http url fp fn = .exec c) ∧
    (∀ fp (n : Int), ∃ c, split_file fp n = .exec c) ∧
    (∀ dir an pw, ∃ c, compress_and_encrypt dir an pw = .exec c) ∧
    (∀ u h cmd p idf, ∃ c, ssh_exec u h cmd p idf = .exec c) ∧
    (∀ h (n : Int), ∃ c, ping_host h n = .exec c) ∧
    (∀ (lp : Int) rh (rp : Int) u h d idf,
        ssh_tunnel lp rh rp u h d idf = .error "Direction must be 'L' or 'R'." ∨
        ∃ c, ssh_tunnel lp rh rp u h d idf = .exec c) ∧
    (∀ h u pw dom, ∃ c, smb_list_shares h u pw dom = .exec c) ∧
    (∀ lp rp u h p idf d,
        rsync_transfer lp rp u h p idf d =
          .error "Direction must be 'upload' or 'download'." ∨
        ∃ c, rsync_transfer lp rp u h p idf d = .exec c) ∧
    (∃ c, list_suid_files = .exec c) ∧
    (∃ c, sudo_permissions = .exec c) ∧
    (∃ c, kernel_info = .exec c) ∧
    (∃ c, world_writable_dirs = .exec c) ∧
    (∃ c, list_file_capabilities = .exec c) ∧
    (∃ c, list_cron_jobs = .exec c) := by
  refine ⟨fun dir an => ⟨_, rfl⟩, fun lf rp u h p idf => ⟨_, rfl⟩,
    fun rf lp u h p idf => ⟨_, rfl⟩, fun fp => ⟨_, rfl⟩,
    fun url fp fn => ⟨_, rfl⟩, fun fp n => ⟨_, rfl⟩,
    ?_, fun u h cmd p idf => ⟨_, rfl⟩, fun h n => ⟨_, rfl⟩,
    ?_, fun h u pw dom => ⟨_, rfl⟩, ?_,
    ⟨_, rfl⟩, ⟨_, rfl⟩, ⟨_, rfl⟩, ⟨_, rfl⟩, ⟨_, rfl⟩, ⟨_, rfl⟩⟩
  · intro dir an pw
    simp only [compress_and_encrypt]
    split
    · exact ⟨_, rfl⟩
    · exact ⟨_, rfl⟩
  · intro lp rh rp u h d idf
    simp only [ssh_tunnel]
    split
    · exact Or.inr ⟨_, rfl⟩
    · exact Or.inl rfl
  · intro lp rp u h p idf d
    simp only [rsync_transfer]
    split
    · exact Or.inr ⟨_, rfl⟩
    · split
      · exact Or.inr ⟨_, rfl⟩
      · exact Or.inl rfl

/-- C8 (code bug): `ssh_exec` wraps the remote command in double quotes
(although its own comment says single quotes), so a command containing
double-quote characters is not received as one token: for the command
`a" "b` the executor's shell sees the two tokens `a` and `b` after
`alice@host` instead of exactly one command token. -/
theorem ssh_exec_quote_bug :
    ssh_exec "alice" "host" "a\" \"b" = .exec "ssh -p 22 alice@host \"a\" \"b\"" ∧
    shellFields "ssh -p 22 alice@host \"a\" \"b\"" =
      ["ssh", "-p", "22", "alice@host", "a", "b"] := by
  constructor
  · rfl
  · rfl

/-- C2 (counterexample): `compress_directory` interpolates the directory
unquoted, so the directory `my dir` reaches the executor split into the
two tokens `my` and `dir` rather than as one token. -/
theorem compress_directory_space_splits :
    compress_directory "my dir" "out.tar.gz" = .exec "tar czf out.tar.gz -C my dir ." ∧
    shellFields "tar czf out.tar.gz -C my dir ." =
      ["tar", "czf", "out.tar.gz", "-C", "my", "dir", "."] ∧
    "my dir" ∉ shellFields "tar czf out.tar.gz -C my dir ." := by
  refine ⟨rfl, rfl, ?_⟩
  decide

/-! ### Field-splitter lemmas (for the quoted-directory property) -/

theorem sfa_word (w cs : List Char) (st : Bool) (acc : List Char)
    (hw : ∀ c ∈ w, ¬(c = ' ' ∨ c = '\'' ∨ c = '"')) :
    shellFieldsAux (w ++ cs) QM.norm st acc =
      shellFieldsAux cs QM.norm (st || !w.isEmpty) (w.reverse ++ acc) := by
  induction w generalizing st acc with
  | nil => simp
  | cons c w ih =>
    have hc := hw c (List.mem_cons_self c w)
    push_neg at hc
    obtain ⟨h1, h2, h3⟩ := hc
    simp only [List.cons_append, shellFieldsAux, if_neg h1, if_neg h2, if_neg h3, List.append_eq]
    rw [ih true (c :: acc) (fun x hx => hw x (List.mem_cons_of_mem c hx))]
    simp [List.append_assoc]

theorem sfa_space (cs acc : List Char) :
    shellFieldsAux (' ' :: cs) QM.norm true acc =
      String.mk acc.reverse :: shellFieldsAux cs QM.norm false [] := rfl

theorem sfa_token (w cs : List Char)
    (hw : ∀ c ∈ w, ¬(c = ' ' ∨ c = '\'' ∨ c = '"')) (hne : w ≠ []) :
    shellFieldsAux (w ++ ' ' :: cs) QM.norm false [] =
      String.mk w :: shellFieldsAux cs QM.norm false [] := by
  rw [sfa_word w (' ' :: cs) false [] hw]
  have hie : w.isEmpty = false := by
    cases w with
    | nil => exact absurd rfl hne
    | cons c w => rfl
  rw [hie]
  simp only [Bool.not_false, Bool.false_or, List.append_nil]
  rw [sfa_space, List.reverse_reverse]

theorem sfa_open_sq (cs : List Char) (st : Bool) (acc : List Char) :
    shellFieldsAux ('\'' :: cs) QM.norm st acc = shellFieldsAux cs QM.sq true acc := rfl

/-- Consuming a `shlex.quote`-rewritten stretch inside single quotes, up to
and including the closing quote, accumulates exactly the original
characters: each embedded single quote travels through the
quote-close/double-quote/quote-reopen sequence and lands literally in the
current field. -/
theorem sfa_escSq (l : List Char) (cs : List Char) (st : Bool) (acc : List Char) :
    shellFieldsAux (escSq l ++ '\'' :: cs) QM.sq st acc =
      shellFieldsAux cs QM.norm true (l.reverse ++ acc) := by
  induction l generalizing st acc with
  | nil => rfl
  | cons c l ih =>
    by_cases hc : c = '\''
    · subst hc
      show shellFieldsAux (escSq l ++ '\'' :: cs) QM.sq true ('\'' :: acc) = _
      rw [ih]
      simp [List.append_assoc]
    · simp only [escSq, if_neg hc, List.cons_append, shellFieldsAux, List.append_eq]
      rw [ih]
      simp [List.append_assoc]

/-- A `shlex.quote`-d string is consumed as one in-progress field holding
exactly the original characters, in all three branches of `shlex.quote`
(empty string, all-safe word, quoted rewrite). -/
theorem sfa_shlex (s : String) (cs : List Char) :
    shellFieldsAux ((shlexQuote s).data ++ cs) QM.norm false [] =
      shellFieldsAux cs QM.norm true s.data.reverse := by
  by_cases hs : s = ""
  · subst hs
    rfl
  · by_cases hsafe : s.data.all shlexSafe = true
    · have hq : shlexQuote s = s := by
        rw [shlexQuote, if_neg hs, if_pos hsafe]
      have hws : ∀ c ∈ s.data, ¬(c = ' ' ∨ c = '\'' ∨ c = '"') := by
        intro c hc hor
        have hsc : shlexSafe c = true := List.all_eq_true.mp hsafe c hc
        rcases hor with h | h | h <;> subst h <;> exact absurd hsc (by decide)
      have hie : s.data.isEmpty = false := by
        cases hnil : s.data with
        | nil => exact absurd (str_data_eq hnil) hs
        | cons c l => rfl
      rw [hq, sfa_word s.data cs false [] hws, hie]
      simp
    · have hq : shlexQuote s = "'" ++ String.mk (escSq s.data) ++ "'" := by
        rw [shlexQuote, if_neg hs, if_neg hsafe]
      rw [hq]
      rw [show ("'" ++ String.mk (escSq s.data) ++ "'").data ++ cs =
        '\'' :: (escSq s.data ++ '\'' :: cs) from by
          simp [data_append, List.append_assoc]]
      rw [sfa_open_sq, sfa_escSq]
      simp

/-- A `shlex.quote`-d argument followed by a space is one whole field equal
to the original string. -/
theorem sfa_shlex_mid (s : String) (cs : List Char) :
    shellFieldsAux ((shlexQuote s).data ++ ' ' :: cs) QM.norm false [] =
      s :: shellFieldsAux cs QM.norm false [] := by
  rw [sfa_shlex, sfa_space, List.reverse_reverse]

/-- A `shlex.quote`-d argument at the end of the command is one whole field
equal to the original string. -/
theorem sfa_shlex_last (s : String) :
    shellFieldsAux ((shlexQuote s).data) QM.norm false [] = [s] := by
  rw [show (shlexQuote s).data = (shlexQuote s).data ++ ([] : List Char) from
    (List.append_nil _).symm]
  rw [sfa_shlex]
  show [String.mk s.data.reverse.reverse] = [s]
  rw [List.reverse_reverse]

/-- C2 (amended): `compress_and_encrypt` passes its directory and password
through `shlex.quote`, so every directory value — in particular one
containing a space, or single quotes — reaches the executor's shell as
exactly one token, for every password; the archive name, which the source
interpolates unquoted, must itself be one plain word (as its default
`archive.zip` is) for the command's fields to be well-formed at all. -/
theorem compress_and_encrypt_quotes (d an pw : String) (han1 : an ≠ "")
    (han2 : ∀ c ∈ an.data, ¬(c = ' ' ∨ c = '\'' ∨ c = '"')) :
    ∃ c, compress_and_encrypt d an pw = .exec c ∧
      shellFields c = ["zip", "-r"] ++ (if pw ≠ "" then ["-P", pw] else []) ++
        [an, d] := by
  have han3 : an.data ≠ [] := fun h => han1 (str_data_eq h)
  by_cases hpw : pw = ""
  · subst hpw
    refine ⟨"zip -r " ++ an ++ " " ++ shlexQuote d, rfl, ?_⟩
    show shellFieldsAux ("zip -r " ++ an ++ " " ++ shlexQuote d).data QM.norm false [] = _
    rw [show ("zip -r " ++ an ++ " " ++ shlexQuote d).data =
      "zip".data ++ ' ' :: ("-r".data ++ ' ' :: (an.data ++ ' ' ::
        (shlexQuote d).data)) from by simp [data_append, List.append_assoc]]
    rw [sfa_token "zip".data _ (by decide) (by decide)]
    rw [sfa_token "-r".data _ (by decide) (by decide)]
    rw [sfa_token an.data _ han2 han3]
    rw [sfa_shlex_last]
    simp
  · refine ⟨"zip -r -P " ++ shlexQuote pw ++ " " ++ an ++ " " ++ shlexQuote d, ?_, ?_⟩
    · show compress_and_encrypt d an pw = _
      simp only [compress_and_encrypt, if_pos hpw]
    · show shellFieldsAux
        ("zip -r -P " ++ shlexQuote pw ++ " " ++ an ++ " " ++ shlexQuote d).data
        QM.norm false [] = _
      rw [show ("zip -r -P " ++ shlexQuote pw ++ " " ++ an ++ " " ++ shlexQuote d).data =
        "zip".data ++ ' ' :: ("-r".data ++ ' ' :: ("-P".data ++ ' ' ::
          ((shlexQuote pw).data ++ ' ' :: (an.data ++ ' ' ::
            (shlexQuote d).data)))) from by simp [data_append, List.append_assoc]]
      rw [sfa_token "zip".data _ (by decide) (by decide)]
      rw [sfa_token "-r".data _ (by decide) (by decide)]
      rw [sfa_token "-P".data _ (by decide) (by decide)]
      rw [sfa_shlex_mid]
      rw [sfa_token an.data _ han2 han3]
      rw [sfa_shlex_last]
      simp [hpw]

/-- Witness for the amended C2: the directory `my 'dir` (space and single
quote) and password `s3cr3t pw` each arrive as a single token in the `zip`
command built by `compress_and_encrypt`. -/
theorem compress_and_encrypt_quotes_w :
    ∃ c, compress_and_encrypt "my 'dir" "archive.zip" "s3cr3t pw" = .exec c ∧
      shellFields c = ["zip", "-r", "-P", "s3cr3t pw", "archive.zip", "my 'dir"] :=
  compress_and_encrypt_quotes "my 'dir" "archive.zip" "s3cr3t pw"
    (by decide) (by decide)
